import Mathlib

/-!
Verification of the ingestion tracker (`src/models/tracking.py`) and the
retrieval pipeline (`src/rag/rag_pipeline.py`) of the enterprise-knowledge-hub
repository, against its natural-language specification.

Shallow embedding conventions:
* `datetime` values are modelled as `Nat` ticks; each call site of
  `datetime.now()` inside one operation receives the same tick `now`
  (no claim compares the sub-call timestamps).
* The tracking log file is `Option (List RawLine)`: `none` means the file does
  not exist; a `RawLine` is either whitespace only (`blank`), the serialized
  form of a well-formed record (`record`), or a non-blank line that pydantic
  `parse_raw` rejects (`malformed`).  JSON (de)serialization itself is the
  external pydantic library, so it is abstracted to this tagged form.
* Python exceptions are modelled with `Except String`.
* The external langchain retriever used by `process_retrieval` is a parameter
  `retriever : String → List Doc`; the embedding additionally returns the list
  of queries that were sent to it, so that "no external call was made" is a
  statement about the result.
-/

namespace KnowledgeHub

/-- `DocumentTrack` from `src/models/tracking.py` (pydantic model).
`metadata` is an optional string-keyed dictionary. -/
structure DocumentTrack where
  file_path : String
  file_id : Option String := none
  status : String
  timestamp : Nat
  error : Option String := none
  metadata : Option (List (String × String)) := none
  vectorized : Bool := false
  vectorized_at : Option Nat := none
deriving DecidableEq

/-- One physical line of the tracking log file. -/
inductive RawLine where
  /-- a line that `line.strip()` reduces to the empty string -/
  | blank (s : String)
  /-- the serialized form of a well-formed record -/
  | record (t : DocumentTrack)
  /-- a non-blank line that `DocumentTrack.parse_raw` rejects -/
  | malformed (s : String)
deriving DecidableEq

/-- Truthiness of `line.strip()` in the guards of `tracking.py`. -/
def lineNonBlank : RawLine → Bool
  | .blank _ => false
  | .record _ => true
  | .malformed _ => true

/-- `DocumentTrack.parse_raw(line)`: succeeds exactly on serialized records,
raises (pydantic validation error) on anything else. -/
def parse_raw : RawLine → Except String DocumentTrack
  | .blank s => .error s
  | .record t => .ok t
  | .malformed s => .error s

/-- The read loop shared by `get_history` and the rewrite in
`update_vectorization_status`: skip blank lines, parse every other line,
propagate the first parse failure as an exception. -/
def readRecords : List RawLine → Except String (List DocumentTrack)
  | [] => .ok []
  | l :: rest =>
    if lineNonBlank l then
      match parse_raw l with
      | .error e => .error e
      | .ok t => (readRecords rest).map (fun ts => t :: ts)
    else
      readRecords rest

/-- `IngestionTracker.get_history` (tracking.py lines 78-89): empty list when
the file does not exist, otherwise parse every non-blank line in file order.
There is no exception handler around `parse_raw`, so a parse failure
propagates. -/
def get_history : Option (List RawLine) → Except String (List DocumentTrack)
  | none => .ok []
  | some lines => readRecords lines

/-- `IngestionTracker.is_file_vectorized` (tracking.py lines 107-120): scans
the whole history for any record whose `file_id` equals the argument and whose
`vectorized` flag is true. -/
def is_file_vectorized (file : Option (List RawLine)) (file_id : String) :
    Except String Bool :=
  (get_history file).map
    (fun tracks => tracks.any (fun t => t.file_id == some file_id && t.vectorized))

/-- Python truthiness of the `error` argument (`if error:` at tracking.py
line 54): `None` and the empty string are falsy. -/
def errTruthy : Option String → Bool
  | none => false
  | some s => !s.isEmpty

/-- The per-record mutation of the rewrite loop (tracking.py lines 51-56):
on a `file_path` match set `vectorized = success`, stamp `vectorized_at`
unconditionally, and overwrite `error` only when a truthy error was passed. -/
def applyUpdate (file_path : String) (success : Bool) (error : Option String)
    (now : Nat) (t : DocumentTrack) : DocumentTrack :=
  if t.file_path == file_path then
    { t with vectorized := success,
             vectorized_at := some now,
             error := if errTruthy error then error else t.error }
  else t

/-- The fresh record appended when no existing record matched
(tracking.py lines 65-72). -/
def freshTrack (file_path : String) (success : Bool) (error : Option String)
    (now : Nat) : DocumentTrack :=
  { file_path := file_path
    file_id := none
    status := if success then "vectorized" else "failed"
    timestamp := now
    error := error
    metadata := none
    vectorized := success
    vectorized_at := if success then some now else none }

/-- Record-level result of a completed `update_vectorization_status` run on a
log whose records parsed successfully: rewrite every record through
`applyUpdate`; if none matched, additionally append a fresh record via
`track`. -/
def rewriteRecords (records : List DocumentTrack) (file_path : String)
    (success : Bool) (error : Option String) (now : Nat) : List DocumentTrack :=
  let updated := records.map (applyUpdate file_path success error now)
  if records.any (fun t => t.file_path == file_path) then updated
  else updated ++ [freshTrack file_path success error now]

/-- `IngestionTracker.update_vectorization_status` (tracking.py lines 33-76),
as a transformer of the persisted log file:
* the file does not exist: early return, the file stays absent;
* some line fails to parse: the exception aborts the rewrite before
  `shutil.move`, the `finally` block removes the temporary file, and the
  original file is untouched;
* all lines parse: the temporary file (holding the rewritten records, blank
  lines dropped) atomically replaces the log, and when no record matched a
  fresh record is appended afterwards. -/
def update_vectorization_status (file : Option (List RawLine))
    (file_path : String) (success : Bool) (error : Option String) (now : Nat) :
    Option (List RawLine) :=
  match file with
  | none => none
  | some lines =>
    match readRecords lines with
    | .error _ => some lines
    | .ok records =>
        some ((rewriteRecords records file_path success error now).map RawLine.record)

/-! ### File-operation trace model of the rewrite

`update_vectorization_status` performs a sequence of primitive file
operations: one temporary-file write per record, one atomic
`shutil.move`, and (only when no record matched) one append via `track`.
Interrupting the sequence after any prefix models a crash or I/O error at
that point; the `finally` block then discards the temporary file. -/

/-- A primitive file operation of the rewrite. -/
inductive FileOp where
  | writeTemp (t : DocumentTrack)
  | moveTempToLog
  | appendLog (t : DocumentTrack)
deriving DecidableEq

/-- Visible file-system state: the log file and the temporary file. -/
structure FsState where
  log : Option (List RawLine)
  temp : Option (List RawLine)
deriving DecidableEq

def applyOp (st : FsState) : FileOp → FsState
  | .writeTemp t => { st with temp := some ((st.temp.getD []) ++ [RawLine.record t]) }
  | .moveTempToLog => { log := st.temp, temp := none }
  | .appendLog t => { st with log := some ((st.log.getD []) ++ [RawLine.record t]) }

def applyOps (st : FsState) (ops : List FileOp) : FsState :=
  ops.foldl applyOp st

/-- The operation trace of a run of `update_vectorization_status` whose read
loop parsed `records`. -/
def updateOps (records : List DocumentTrack) (file_path : String)
    (success : Bool) (error : Option String) (now : Nat) : List FileOp :=
  (records.map (fun t => FileOp.writeTemp (applyUpdate file_path success error now t)))
    ++ [FileOp.moveTempToLog]
    ++ (if records.any (fun t => t.file_path == file_path) then []
        else [FileOp.appendLog (freshTrack file_path success error now)])

/-- The `finally` block (tracking.py lines 73-76): remove the temporary file
if it still exists. -/
def discardTemp (st : FsState) : FsState :=
  { st with temp := none }

/-! ### Spec-side helpers for stating claims about "the last record" -/

/-- The last record in file order whose `file_path` equals `p`. -/
def lastRecordFor (records : List DocumentTrack) (p : String) :
    Option DocumentTrack :=
  (records.filter (fun t => t.file_path == p)).getLast?

/-- The last record in file order whose `file_id` equals `id`. -/
def lastRecordWithId (records : List DocumentTrack) (id : String) :
    Option DocumentTrack :=
  (records.filter (fun t => t.file_id == some id)).getLast?

/-! ### Retrieval pipeline (`src/rag/rag_pipeline.py`) -/

/-- A langchain document as seen by `process_retrieval`: page content,
metadata dictionary, and a possibly absent `score` attribute
(`getattr(doc, "score", 0)` defaults a missing attribute to `0`). -/
structure Doc where
  page_content : String
  metadata : List (String × String)
  score : Option ℚ
deriving DecidableEq

/-- The sort key of `rerank_documents`: `getattr(doc, "score", 0)`. -/
def docKey (d : Doc) : ℚ :=
  d.score.getD 0

/-- `rerank_documents` (rag_pipeline.py lines 93-95):
`sorted(docs, key=lambda doc: getattr(doc, "score", 0), reverse=True)`.
Python's `sorted` with `reverse=True` is the stable descending sort by the
key; `List.insertionSort` with `docKey b ≤ docKey a` is stable for that same
order, and stable sorts of a list agree, so this is the same function. -/
def rerank_documents (docs : List Doc) : List Doc :=
  docs.insertionSort (fun a b => docKey b ≤ docKey a)

/-- The `input_dict` argument of `process_retrieval`: `dict.get` of an absent
key yields `None`, hence `Option`-valued fields. -/
structure QueryInput where
  question : Option String
  language : Option String
deriving DecidableEq

/-- The dictionary returned by `process_retrieval`. -/
structure RetrievalResult where
  context : String
  sources : List (List (String × String))
deriving DecidableEq

/-- `DEFAULT_RETRIEVER_K` from `src/utils/constants.py` line 25. -/
def DEFAULT_RETRIEVER_K : Nat := 3

/-- The sentinel context returned when no documents survive
(rag_pipeline.py line 110). -/
def noDocsMessage : String := "No relevant documents were found for your query."

/-- `process_retrieval` (rag_pipeline.py lines 97-117), parameterized over the
external multi-query retriever.  The second component of the result is the
list of queries sent to that external retriever (the code calls
`multi_query_retriever.get_relevant_documents(query)` exactly once, and only
after the `if not query` validation guard).  `if not query` is true exactly
for a missing key (`None`) and for the empty string. -/
def process_retrieval (retriever : String → List Doc) (input : QueryInput) :
    Except String RetrievalResult × List String :=
  match input.question with
  | none => (.error "Input dictionary must contain a question key.", [])
  | some q =>
    if q = "" then
      (.error "Input dictionary must contain a question key.", [])
    else
      let docs := retriever q
      let reranked := rerank_documents docs
      if reranked = [] then
        (.ok { context := noDocsMessage, sources := [] }, [q])
      else
        (.ok { context := String.intercalate "\n\n"
                 ((reranked.take DEFAULT_RETRIEVER_K).map (fun d => d.page_content)),
               sources := (reranked.take DEFAULT_RETRIEVER_K).map (fun d => d.metadata) },
         [q])

/-- The route-level guard of `process_query` (main.py lines 69-70):
`if not query_body.query.strip(): raise ValueError(...)`.  Python's
`s.strip()` is falsy exactly when every character of `s` is whitespace, so the
guard rejects exactly the queries whose characters are all whitespace. -/
def process_query_rejects_blank (query : String) : Bool :=
  query.data.all Char.isWhitespace

/-- The fusion weights configured in `get_ensemble_retriever`
(rag_pipeline.py lines 71-74): `weights=[0.7, 0.3]`, in the order
`[semantic_retriever, bm25_retriever]`. -/
def ensemble_weights : List ℚ := [7/10, 3/10]

/-- Weight of the semantic (vector similarity) retriever in
`get_ensemble_retriever`. -/
def semantic_weight : ℚ := 7/10

/-- Weight of the lexical (BM25) retriever in `get_ensemble_retriever`. -/
def lexical_weight : ℚ := 3/10

/-! ### Concrete example inputs used by witnesses and counterexamples -/

/-- A record of a successfully vectorized Google Drive file. -/
def rGood : DocumentTrack :=
  { file_path := "a", file_id := some "f", status := "success", timestamp := 1,
    vectorized := true, vectorized_at := some 1 }

/-- A later failure record for the same file: not vectorized, with an error. -/
def rFail : DocumentTrack :=
  { file_path := "a", file_id := some "f", status := "failed", timestamp := 2,
    error := some "boom", vectorized := false, vectorized_at := none }

/-- Candidate documents in which the passage `P` is produced twice (as by two
strategies or two phrasings), the higher-scoring occurrence second. -/
def dupDocs : List Doc :=
  [{ page_content := "P", metadata := [("s", "1")], score := some 6 },
   { page_content := "Q", metadata := [("s", "2")], score := some 9 },
   { page_content := "P", metadata := [("s", "3")], score := some 9 }]

/-! ## Helper lemmas -/

/-- Reading back a log made only of serialized records succeeds and returns
exactly those records. -/
theorem readRecords_map_record (ts : List DocumentTrack) :
    readRecords (ts.map RawLine.record) = .ok ts := by
  induction ts with
  | nil => rfl
  | cons t ts ih => simp [readRecords, lineNonBlank, parse_raw, ih, Except.map]

/-- On a log whose lines all parse, `update_vectorization_status` replaces the
file with the serialized rewrite of its records. -/
theorem update_eq_rewrite (lines : List RawLine) (records : List DocumentTrack)
    (p : String) (s : Bool) (e : Option String) (n : Nat)
    (h : readRecords lines = .ok records) :
    update_vectorization_status (some lines) p s e n =
      some ((rewriteRecords records p s e n).map RawLine.record) := by
  simp [update_vectorization_status, h]

/-- `applyUpdate` never changes the `file_path` field. -/
theorem applyUpdate_file_path (p : String) (s : Bool) (e : Option String)
    (n : Nat) (t : DocumentTrack) :
    (applyUpdate p s e n t).file_path = t.file_path := by
  unfold applyUpdate
  split <;> rfl

/-- `applyUpdate` on a record whose path matches. -/
theorem applyUpdate_match (p : String) (s : Bool) (e : Option String) (n : Nat)
    (t : DocumentTrack) (ht : t.file_path = p) :
    applyUpdate p s e n t =
      { t with vectorized := s, vectorized_at := some n,
               error := if errTruthy e then e else t.error } := by
  simp [applyUpdate, ht]

/-- `applyUpdate` on a record whose path does not match. -/
theorem applyUpdate_no_match (p : String) (s : Bool) (e : Option String) (n : Nat)
    (t : DocumentTrack) (ht : t.file_path ≠ p) :
    applyUpdate p s e n t = t := by
  simp [applyUpdate, ht]

/-- Element-wise description of the rewritten record list. -/
theorem rewriteRecords_getElem (records : List DocumentTrack) (p : String)
    (s : Bool) (e : Option String) (n : Nat) (i : Nat) (t : DocumentTrack)
    (h : records[i]? = some t) :
    (rewriteRecords records p s e n)[i]? = some (applyUpdate p s e n t) := by
  have hi : i < records.length := by
    rcases List.getElem?_eq_some_iff.mp h with ⟨hlt, _⟩
    exact hlt
  unfold rewriteRecords
  split
  · simp [List.getElem?_map, h]
  · rw [List.getElem?_append_left (by simpa using hi)]
    simp [List.getElem?_map, h]

/-- When some record matches, the rewrite is exactly the map (no append). -/
theorem rewriteRecords_matched (records : List DocumentTrack) (p : String)
    (s : Bool) (e : Option String) (n : Nat)
    (hm : records.any (fun t => t.file_path == p) = true) :
    rewriteRecords records p s e n = records.map (applyUpdate p s e n) := by
  unfold rewriteRecords
  rw [if_pos hm]

/-- When no record matches, the rewrite maps (a no-op map in that case) and
appends the fresh record. -/
theorem rewriteRecords_unmatched (records : List DocumentTrack) (p : String)
    (s : Bool) (e : Option String) (n : Nat)
    (hm : records.any (fun t => t.file_path == p) = false) :
    rewriteRecords records p s e n =
      records.map (applyUpdate p s e n) ++ [freshTrack p s e n] := by
  unfold rewriteRecords
  rw [hm]
  simp

/-- `lastRecordFor` commutes with a map that preserves `file_path`. -/
theorem lastRecordFor_map (l : List DocumentTrack) (p : String)
    (g : DocumentTrack → DocumentTrack)
    (hg : ∀ t, (g t).file_path = t.file_path) :
    lastRecordFor (l.map g) p = (lastRecordFor l p).map g := by
  unfold lastRecordFor
  rw [List.filter_map]
  have hfun : ((fun t => t.file_path == p) ∘ g) = (fun t => t.file_path == p) := by
    funext t
    simp [hg]
  rw [hfun, List.getLast?_map]

/-- Appending a record for path `p` makes it the last record for `p`. -/
theorem lastRecordFor_concat_match (l : List DocumentTrack) (t : DocumentTrack)
    (p : String) (ht : t.file_path = p) :
    lastRecordFor (l ++ [t]) p = some t := by
  unfold lastRecordFor
  rw [List.filter_append]
  have : List.filter (fun t => t.file_path == p) [t] = [t] := by
    simp [List.filter, ht]
  rw [this, List.getLast?_concat]

/-- If some record matches path `p`, the last one exists and matches `p`. -/
theorem lastRecordFor_of_any (l : List DocumentTrack) (p : String)
    (h : l.any (fun t => t.file_path == p) = true) :
    ∃ t, lastRecordFor l p = some t ∧ t.file_path = p := by
  rcases List.any_eq_true.mp h with ⟨x, hx, hq⟩
  have hmem : x ∈ l.filter (fun t => t.file_path == p) :=
    List.mem_filter.mpr ⟨hx, hq⟩
  have hne : l.filter (fun t => t.file_path == p) ≠ [] := List.ne_nil_of_mem hmem
  cases hlast : (l.filter (fun t => t.file_path == p)).getLast? with
  | none => exact absurd (List.getLast?_eq_none_iff.mp hlast) hne
  | some t =>
    refine ⟨t, hlast, ?_⟩
    rcases List.getLast?_eq_some_iff.mp hlast with ⟨ys, hys⟩
    have : t ∈ l.filter (fun t => t.file_path == p) := by
      rw [hys]
      simp
    exact beq_iff_eq.mp (List.mem_filter.mp this).2

/-- Conversely, an existing last record for `p` means some record matches. -/
theorem any_of_lastRecordFor (l : List DocumentTrack) (p : String)
    (t : DocumentTrack) (h : lastRecordFor l p = some t) :
    l.any (fun t => t.file_path == p) = true := by
  unfold lastRecordFor at h
  rcases List.getLast?_eq_some_iff.mp h with ⟨ys, hys⟩
  have hmem : t ∈ l.filter (fun t => t.file_path == p) := by
    rw [hys]
    simp
  exact List.any_eq_true.mpr ⟨t, (List.mem_filter.mp hmem).1, (List.mem_filter.mp hmem).2⟩

/-- Running only temporary-file writes appends their records to the temporary
file and leaves the log file untouched. -/
theorem applyOps_writeTemps (ts : List DocumentTrack) :
    ∀ (st : FsState) (l0 : List RawLine), st.temp = some l0 →
      applyOps st (ts.map FileOp.writeTemp) =
        { log := st.log, temp := some (l0 ++ ts.map RawLine.record) } := by
  induction ts with
  | nil =>
    intro st l0 h
    cases st
    simp_all [applyOps]
  | cons t ts ih =>
    intro st l0 h
    have step : applyOp st (FileOp.writeTemp t) =
        { log := st.log, temp := some (l0 ++ [RawLine.record t]) } := by
      cases st
      simp_all [applyOp]
    calc applyOps st ((t :: ts).map FileOp.writeTemp)
        = applyOps (applyOp st (FileOp.writeTemp t)) (ts.map FileOp.writeTemp) := rfl
      _ = { log := st.log, temp := some (l0 ++ (t :: ts).map RawLine.record) } := by
          rw [step, ih _ (l0 ++ [RawLine.record t]) rfl]
          simp

/-- The trace of a complete run reproduces `update_vectorization_status`. -/
theorem applyOps_updateOps_complete (lines : List RawLine)
    (records : List DocumentTrack) (p : String) (s : Bool) (e : Option String)
    (n : Nat) (h : readRecords lines = .ok records) :
    (applyOps { log := some lines, temp := some [] } (updateOps records p s e n)).log =
      update_vectorization_status (some lines) p s e n := by
  rw [update_eq_rewrite lines records p s e n h]
  unfold updateOps
  rw [List.append_assoc, applyOps, List.foldl_append, ← applyOps, ← applyOps]
  have hmap : records.map (fun t => FileOp.writeTemp (applyUpdate p s e n t)) =
      (records.map (applyUpdate p s e n)).map FileOp.writeTemp := by
    rw [List.map_map]
    rfl
  rw [hmap, applyOps_writeTemps _ _ [] rfl]
  unfold rewriteRecords
  split
  · simp [applyOps, applyOp]
  · simp [applyOps, applyOp]

/-- Reranking permutes the candidates: in particular nothing is deduplicated,
every candidate occurrence survives. -/
theorem rerank_perm (docs : List Doc) : (rerank_documents docs).Perm docs :=
  List.perm_insertionSort _ docs

/-- Reranking sorts descending by the score key. -/
theorem rerank_sorted (docs : List Doc) :
    List.Sorted (fun a b => docKey b ≤ docKey a) (rerank_documents docs) := by
  haveI : IsTotal Doc (fun a b => docKey b ≤ docKey a) :=
    ⟨fun a b => le_total (docKey b) (docKey a)⟩
  haveI : IsTrans Doc (fun a b => docKey b ≤ docKey a) :=
    ⟨fun _ _ _ hab hbc => le_trans hbc hab⟩
  exact List.sorted_insertionSort _ docs

/-- Reranking is stable: two occurrences with equal scores keep their relative
retrieval order. -/
theorem rerank_stable (docs : List Doc) (a b : Doc) (hk : docKey a = docKey b)
    (hsub : [a, b].Sublist docs) : [a, b].Sublist (rerank_documents docs) :=
  List.pair_sublist_insertionSort (le_of_eq hk.symm) hsub

/-- Reranking the empty candidate list yields the empty list. -/
theorem rerank_nil : rerank_documents [] = [] := rfl

/-! ## Claim theorems -/

/-- C1, counterexample to the claim as stated: in the log
`[rGood, rFail]` the last record carrying `file_id = "f"` is the failed
record `rFail` with `vectorized == false`, yet `is_file_vectorized`
returns true (it scans for any vectorized record, not the last one). -/
theorem C1_cex_any_not_last :
    is_file_vectorized (some [RawLine.record rGood, RawLine.record rFail]) "f" = .ok true ∧
    lastRecordWithId [rGood, rFail] "f" = some rFail ∧
    rFail.vectorized = false ∧
    rFail.status = "failed" := by
  refine ⟨rfl, by decide, rfl, rfl⟩

/-- C1, amended: on a readable log, `is_file_vectorized(id)` returns true if
and only if SOME record (not necessarily the last) has that `file_id` and
`vectorized == true`; in particular it returns false for an unknown id. -/
theorem C1_is_file_vectorized_iff_any (file : Option (List RawLine))
    (records : List DocumentTrack) (id : String)
    (h : get_history file = .ok records) :
    is_file_vectorized file id = .ok true ↔
      ∃ t ∈ records, t.file_id = some id ∧ t.vectorized = true := by
  unfold is_file_vectorized
  rw [h]
  constructor
  · intro hok
    have hany : records.any (fun t => t.file_id == some id && t.vectorized) = true :=
      Except.ok.inj hok
    rcases List.any_eq_true.mp hany with ⟨t, ht, hp⟩
    simp only [Bool.and_eq_true, beq_iff_eq] at hp
    exact ⟨t, ht, hp.1, hp.2⟩
  · rintro ⟨t, ht, h1, h2⟩
    have hany : records.any (fun t => t.file_id == some id && t.vectorized) = true :=
      List.any_eq_true.mpr ⟨t, ht, by simp [h1, h2]⟩
    simp [Except.map, hany]

/-- Witness for `C1_is_file_vectorized_iff_any` at a concrete log. -/
theorem C1_witness :
    is_file_vectorized (some [RawLine.record rGood]) "f" = .ok true :=
  (C1_is_file_vectorized_iff_any (some [RawLine.record rGood]) [rGood] "f" rfl).mpr
    ⟨rGood, by simp, rfl, rfl⟩

/-- C6, code bug: `get_history` has no handler around `parse_raw`, so a log
holding one well-formed record followed by an unparsable trailing line makes
the whole read raise instead of skipping the bad line and returning the
preceding record (which it does return when the bad line is absent). -/
theorem C6_history_raises_on_malformed :
    get_history (some [RawLine.record rGood, RawLine.malformed "truncated"]) =
      .error "truncated" ∧
    get_history (some [RawLine.record rGood]) = .ok [rGood] :=
  ⟨rfl, rfl⟩

/-- C2: the rewrite is all-or-nothing with respect to the persisted log.  If
the run of `update_vectorization_status` on a readable log is interrupted at
any point before the atomic `shutil.move` (i.e. after any prefix of the
temporary-file writes, which is where every read, parse or write failure can
strike), then after the `finally` cleanup the temporary file is gone and the
log file holds exactly its original contents; and a complete, uninterrupted
run produces exactly the file computed by `update_vectorization_status`. -/
theorem C2_update_all_or_nothing (lines : List RawLine)
    (records : List DocumentTrack) (p : String) (s : Bool) (e : Option String)
    (n : Nat) (h : readRecords lines = .ok records) :
    (∀ k ≤ records.length,
      (discardTemp (applyOps { log := some lines, temp := some [] }
          ((updateOps records p s e n).take k))).log = some lines ∧
      (discardTemp (applyOps { log := some lines, temp := some [] }
          ((updateOps records p s e n).take k))).temp = none) ∧
    (applyOps { log := some lines, temp := some [] } (updateOps records p s e n)).log =
      update_vectorization_status (some lines) p s e n := by
  refine ⟨?_, applyOps_updateOps_complete lines records p s e n h⟩
  intro k hk
  have hlen : k ≤ (records.map (fun t => FileOp.writeTemp (applyUpdate p s e n t))).length := by
    simpa using hk
  have htake : (updateOps records p s e n).take k =
      ((records.take k).map (applyUpdate p s e n)).map FileOp.writeTemp := by
    unfold updateOps
    rw [List.append_assoc, List.take_append_of_le_length hlen, ← List.map_take,
      List.map_map]
    rfl
  rw [htake, applyOps_writeTemps _ _ [] rfl]
  exact ⟨rfl, rfl⟩

/-- Witness for `C2_update_all_or_nothing` on a concrete one-record log. -/
theorem C2_witness :
    (discardTemp (applyOps { log := some [RawLine.record rGood], temp := some [] }
        ((updateOps [rGood] "a" true none 5).take 1))).log = some [RawLine.record rGood] :=
  ((C2_update_all_or_nothing [RawLine.record rGood] [rGood] "a" true none 5 rfl).1
    1 (by decide)).1

/-- C3, counterexample to the claim as stated, two parts:
(1) when the log file does not exist, `update_vectorization_status` is an
early-return no-op — no new record is appended, contrary to "including when
the log does not yet exist"; (2) on a matching record, `vectorized_at` is
stamped even when `success = false` (here: `rFail.vectorized_at` goes from
`none` to `some 7` on a failed update), contrary to "stamped only if success
is true". -/
theorem C3_cex_missing_log_and_failure_stamp :
    update_vectorization_status none "a" true none 5 = none ∧
    update_vectorization_status (some [RawLine.record rFail]) "a" false none 7 =
      some [RawLine.record { rFail with vectorized := false, vectorized_at := some 7 }] ∧
    rFail.vectorized_at = none :=
  ⟨rfl, rfl, rfl⟩

/-- C3, amended: on an existing, readable log, every record whose path matches
gets `vectorized = success` and a fresh `vectorized_at` stamp (stamped on
failure as well), `error` is overwritten only when a non-empty error string is
provided and is otherwise carried forward, non-matching records are carried
forward unchanged; if no record matched, a fresh terminal record with status
`vectorized`/`failed` is appended; if the log file does not exist, the call is
a no-op. -/
theorem C3_update_status_behavior (lines : List RawLine)
    (records : List DocumentTrack) (p : String) (s : Bool) (e : Option String)
    (n : Nat) (h : readRecords lines = .ok records) :
    update_vectorization_status none p s e n = none ∧
    ∃ out : List DocumentTrack,
      update_vectorization_status (some lines) p s e n = some (out.map RawLine.record) ∧
      (∀ (i : Nat) (t : DocumentTrack), records[i]? = some t → t.file_path = p →
        out[i]? = some { t with vectorized := s, vectorized_at := some n,
                                error := if errTruthy e then e else t.error }) ∧
      (∀ (i : Nat) (t : DocumentTrack), records[i]? = some t → t.file_path ≠ p → out[i]? = some t) ∧
      ((∀ t ∈ records, t.file_path ≠ p) →
        out = records ++ [freshTrack p s e n] ∧
        (freshTrack p s e n).vectorized = s ∧
        (freshTrack p s e n).vectorized_at = (if s then some n else none) ∧
        (freshTrack p s e n).status = (if s then "vectorized" else "failed")) ∧
      ((∃ t ∈ records, t.file_path = p) → out.length = records.length) := by
  refine ⟨rfl, rewriteRecords records p s e n, update_eq_rewrite lines records p s e n h,
    ?_, ?_, ?_, ?_⟩
  · intro i t hit ht
    rw [rewriteRecords_getElem records p s e n i t hit,
      applyUpdate_match p s e n t ht]
  · intro i t hit ht
    rw [rewriteRecords_getElem records p s e n i t hit,
      applyUpdate_no_match p s e n t ht]
  · intro hall
    have hany : records.any (fun t => t.file_path == p) = false := by
      rw [List.any_eq_false]
      intro t ht
      simp [hall t ht]
    have hmap : records.map (applyUpdate p s e n) = records := by
      calc records.map (applyUpdate p s e n) = records.map id :=
            List.map_congr_left (fun t ht => applyUpdate_no_match p s e n t (hall t ht))
        _ = records := List.map_id records
    refine ⟨?_, rfl, rfl, rfl⟩
    unfold rewriteRecords
    rw [hany]
    simp [hmap]
  · rintro ⟨t, ht, hp⟩
    have hany : records.any (fun t => t.file_path == p) = true :=
      List.any_eq_true.mpr ⟨t, ht, by simp [hp]⟩
    unfold rewriteRecords
    rw [hany]
    simp

/-- Witness for `C3_update_status_behavior` at a concrete one-record log. -/
theorem C3_witness :
    update_vectorization_status none "a" true none 5 = none ∧
    ∃ out : List DocumentTrack,
      update_vectorization_status (some [RawLine.record rGood]) "a" true none 5 =
        some (out.map RawLine.record) ∧
      (∀ (i : Nat) (t : DocumentTrack), [rGood][i]? = some t → t.file_path = "a" →
        out[i]? = some { t with vectorized := true, vectorized_at := some 5,
                                error := if errTruthy none then none else t.error }) ∧
      (∀ (i : Nat) (t : DocumentTrack), [rGood][i]? = some t → t.file_path ≠ "a" → out[i]? = some t) ∧
      ((∀ t ∈ [rGood], t.file_path ≠ "a") →
        out = [rGood] ++ [freshTrack "a" true none 5] ∧
        (freshTrack "a" true none 5).vectorized = true ∧
        (freshTrack "a" true none 5).vectorized_at = (if true then some 5 else none) ∧
        (freshTrack "a" true none 5).status = (if true then "vectorized" else "failed")) ∧
      ((∃ t ∈ [rGood], t.file_path = "a") → out.length = [rGood].length) :=
  C3_update_status_behavior [RawLine.record rGood] [rGood] "a" true none 5 rfl

/-- C10: a completed `update_vectorization_status` on an existing, readable
log rewrites every record whose `file_path` matches with `vectorized =
success` and a freshly stamped `vectorized_at` (all matching records, not
only the latest), while every other record is carried into the new log with
unchanged field values at its original position (hence in the same relative
order); at most a fresh appended record follows them. -/
theorem C10_update_frame_effect (lines : List RawLine)
    (records : List DocumentTrack) (p : String) (s : Bool) (e : Option String)
    (n : Nat) (h : readRecords lines = .ok records) :
    ∃ updated tail : List DocumentTrack,
      update_vectorization_status (some lines) p s e n =
        some ((updated ++ tail).map RawLine.record) ∧
      updated.length = records.length ∧
      ∀ (i : Nat) (t : DocumentTrack), records[i]? = some t →
        (t.file_path = p →
          updated[i]? = some { t with vectorized := s, vectorized_at := some n,
                                      error := if errTruthy e then e else t.error }) ∧
        (t.file_path ≠ p → updated[i]? = some t) := by
  refine ⟨records.map (applyUpdate p s e n),
    if records.any (fun t => t.file_path == p) then [] else [freshTrack p s e n],
    ?_, by simp, ?_⟩
  · rw [update_eq_rewrite lines records p s e n h]
    unfold rewriteRecords
    split <;> simp
  · intro i t hit
    constructor
    · intro ht
      simp [List.getElem?_map, hit, applyUpdate_match p s e n t ht]
    · intro ht
      simp [List.getElem?_map, hit, applyUpdate_no_match p s e n t ht]

/-- Witness for `C10_update_frame_effect` at a concrete one-record log. -/
theorem C10_witness :
    ∃ updated tail : List DocumentTrack,
      update_vectorization_status (some [RawLine.record rFail]) "a" true (some "x") 9 =
        some ((updated ++ tail).map RawLine.record) ∧
      updated.length = [rFail].length ∧
      ∀ (i : Nat) (t : DocumentTrack), [rFail][i]? = some t →
        (t.file_path = "a" →
          updated[i]? = some { t with vectorized := true, vectorized_at := some 9,
                                      error := if errTruthy (some "x") then some "x" else t.error }) ∧
        (t.file_path ≠ "a" → updated[i]? = some t) :=
  C10_update_frame_effect [RawLine.record rFail] [rFail] "a" true (some "x") 9 rfl

/-- C7, counterexample to "the error field is cleared": a success update with
no error argument leaves the pre-existing error (`some "boom"`) on the
matching record, because the code only assigns `error` when a truthy error is
passed — it never clears it. -/
theorem C7_cex_error_not_cleared :
    lastRecordFor (rewriteRecords [rFail] "a" true none 5) "a" =
      some { rFail with vectorized := true, vectorized_at := some 5 } ∧
    rFail.error = some "boom" ∧
    ({ rFail with vectorized := true, vectorized_at := some 5 } : DocumentTrack).error =
      some "boom" := by
  exact ⟨by decide, rfl, rfl⟩

/-- C7, amended: `updateStatus(path, success=true)` twice in a row yields the
same final latest-record state for that path as calling it once — same
`vectorized == true`, `vectorized_at` set in both outcomes, and the `error`
field (like `status`, `file_id` and `timestamp`) carried over unchanged
between the two outcomes (rather than cleared). -/
theorem C7_update_success_idempotent (lines : List RawLine)
    (records : List DocumentTrack) (p : String) (n1 n2 : Nat)
    (h : readRecords lines = .ok records) :
    ∃ (out1 out2 : List DocumentTrack) (t1 t2 : DocumentTrack),
      get_history (update_vectorization_status (some lines) p true none n1) = .ok out1 ∧
      get_history (update_vectorization_status
        (update_vectorization_status (some lines) p true none n1) p true none n2) = .ok out2 ∧
      lastRecordFor out1 p = some t1 ∧
      lastRecordFor out2 p = some t2 ∧
      t1.vectorized = true ∧ t2.vectorized = true ∧
      t1.vectorized_at = some n1 ∧ t2.vectorized_at = some n2 ∧
      t2.error = t1.error ∧ t2.status = t1.status ∧ t2.file_id = t1.file_id ∧
      t2.timestamp = t1.timestamp ∧ t2.file_path = t1.file_path := by
  have h1 := update_eq_rewrite lines records p true none n1 h
  have E1 : ∃ t1, lastRecordFor (rewriteRecords records p true none n1) p = some t1 ∧
      t1.file_path = p ∧ t1.vectorized = true ∧ t1.vectorized_at = some n1 := by
    by_cases hm : records.any (fun t => t.file_path == p) = true
    · obtain ⟨t0, ht0, ht0p⟩ := lastRecordFor_of_any records p hm
      have hR1eq := rewriteRecords_matched records p true none n1 hm
      refine ⟨applyUpdate p true none n1 t0, ?_, ?_, ?_, ?_⟩
      · rw [hR1eq,
          lastRecordFor_map records p _ (applyUpdate_file_path p true none n1), ht0]
        rfl
      · rw [applyUpdate_file_path]
        exact ht0p
      · rw [applyUpdate_match p true none n1 t0 ht0p]
      · rw [applyUpdate_match p true none n1 t0 ht0p]
    · have hm' : records.any (fun t => t.file_path == p) = false := by
        simpa using hm
      have hR1eq := rewriteRecords_unmatched records p true none n1 hm'
      refine ⟨freshTrack p true none n1, ?_, rfl, rfl, rfl⟩
      rw [hR1eq]
      exact lastRecordFor_concat_match _ _ _ rfl
  obtain ⟨t1, ht1, ht1p, ht1v, ht1a⟩ := E1
  have hm2 : (rewriteRecords records p true none n1).any (fun t => t.file_path == p) = true :=
    any_of_lastRecordFor _ p t1 ht1
  have h2 := update_eq_rewrite
    ((rewriteRecords records p true none n1).map RawLine.record)
    (rewriteRecords records p true none n1) p true none n2
    (readRecords_map_record _)
  have hR2eq := rewriteRecords_matched (rewriteRecords records p true none n1)
    p true none n2 hm2
  refine ⟨rewriteRecords records p true none n1,
    rewriteRecords (rewriteRecords records p true none n1) p true none n2,
    t1, applyUpdate p true none n2 t1, ?_, ?_, ht1, ?_, ht1v, ?_, ht1a, ?_, ?_, ?_, ?_, ?_, ?_⟩
  · rw [h1]
    exact readRecords_map_record _
  · rw [h1, h2]
    exact readRecords_map_record _
  · rw [hR2eq,
      lastRecordFor_map _ p _ (applyUpdate_file_path p true none n2), ht1]
    rfl
  · rw [applyUpdate_match p true none n2 t1 ht1p]
  · rw [applyUpdate_match p true none n2 t1 ht1p]
  · rw [applyUpdate_match p true none n2 t1 ht1p]
    simp [errTruthy]
  · rw [applyUpdate_match p true none n2 t1 ht1p]
  · rw [applyUpdate_match p true none n2 t1 ht1p]
  · rw [applyUpdate_match p true none n2 t1 ht1p]
  · rw [applyUpdate_match p true none n2 t1 ht1p]

/-- Witness for `C7_update_success_idempotent` on a concrete log. -/
theorem C7_witness :
    ∃ (out1 out2 : List DocumentTrack) (t1 t2 : DocumentTrack),
      get_history (update_vectorization_status (some [RawLine.record rFail]) "a" true none 5) =
        .ok out1 ∧
      get_history (update_vectorization_status
        (update_vectorization_status (some [RawLine.record rFail]) "a" true none 5)
        "a" true none 6) = .ok out2 ∧
      lastRecordFor out1 "a" = some t1 ∧
      lastRecordFor out2 "a" = some t2 ∧
      t1.vectorized = true ∧ t2.vectorized = true ∧
      t1.vectorized_at = some 5 ∧ t2.vectorized_at = some 6 ∧
      t2.error = t1.error ∧ t2.status = t1.status ∧ t2.file_id = t1.file_id ∧
      t2.timestamp = t1.timestamp ∧ t2.file_path = t1.file_path :=
  C7_update_success_idempotent [RawLine.record rFail] [rFail] "a" 5 6 rfl

/-- C4, counterexample to the dedup part of the claim as stated: the passage
`P` is produced twice among the candidates (scores 6 and 9, the higher one
second).  The result returned by the retrieval step contains `P` twice — the
pipeline performs no deduplication at all, in particular it does not keep only
the highest-scoring occurrence of a passage. -/
theorem C4_cex_no_dedup :
    (process_retrieval (fun _ => dupDocs)
        { question := some "q", language := some "en" }).1 =
      .ok { context := "Q\n\nP\n\nP",
            sources := [[("s", "2")], [("s", "3")], [("s", "1")]] } ∧
    ((rerank_documents dupDocs).map (fun d => d.page_content)).count "P" = 2 :=
  ⟨rfl, by decide⟩

/-- C4, amended: the ensemble configuration fixes fusion weights `[0.7, 0.3]`
with the semantic weight strictly greater than the lexical one, and the
reranking applied by `retrieve` is a stable descending sort by relevance
score (missing scores default to 0) of the candidate list as delivered by the
retriever: a permutation — so duplicate passages survive, no
dedup-keep-highest is performed. -/
theorem C4_fusion_weights_and_rerank :
    lexical_weight < semantic_weight ∧
    ensemble_weights = [semantic_weight, lexical_weight] ∧
    (∀ docs : List Doc, (rerank_documents docs).Perm docs) ∧
    (∀ docs : List Doc,
      List.Sorted (fun a b => docKey b ≤ docKey a) (rerank_documents docs)) ∧
    (∀ (docs : List Doc) (a b : Doc), docKey a = docKey b → [a, b].Sublist docs →
      [a, b].Sublist (rerank_documents docs)) := by
  refine ⟨?_, rfl, rerank_perm, rerank_sorted, rerank_stable⟩
  norm_num [lexical_weight, semantic_weight]

/-- Witness for `C4_fusion_weights_and_rerank`: stability at two concrete
equal-score documents of `dupDocs`. -/
theorem C4_witness :
    [({ page_content := "Q", metadata := [("s", "2")], score := some 9 } : Doc),
     ({ page_content := "P", metadata := [("s", "3")], score := some 9 } : Doc)].Sublist
      (rerank_documents dupDocs) :=
  C4_fusion_weights_and_rerank.2.2.2.2 dupDocs _ _ rfl
    (List.Sublist.cons _ (List.Sublist.refl _))

/-- C5: whenever the reranked candidate list is non-empty, the retrieval step
returns at most `DEFAULT_RETRIEVER_K` passages in its context and at most
`DEFAULT_RETRIEVER_K` source entries, however many candidates were
produced. -/
theorem C5_retrieval_truncation (retriever : String → List Doc)
    (input : QueryInput) (q : String) (hq : input.question = some q)
    (hne : q ≠ "") (hnonempty : rerank_documents (retriever q) ≠ []) :
    ∃ (res : RetrievalResult) (passages : List String),
      (process_retrieval retriever input).1 = .ok res ∧
      res.context = String.intercalate "\n\n" passages ∧
      passages.length ≤ DEFAULT_RETRIEVER_K ∧
      res.sources.length ≤ DEFAULT_RETRIEVER_K := by
  obtain ⟨iq, il⟩ := input
  simp only at hq
  subst hq
  refine ⟨⟨String.intercalate "\n\n"
        (((rerank_documents (retriever q)).take DEFAULT_RETRIEVER_K).map
          (fun d => d.page_content)),
      ((rerank_documents (retriever q)).take DEFAULT_RETRIEVER_K).map
        (fun d => d.metadata)⟩,
    ((rerank_documents (retriever q)).take DEFAULT_RETRIEVER_K).map
      (fun d => d.page_content),
    ?_, rfl, ?_, ?_⟩
  · simp [process_retrieval, hne, hnonempty]
  · rw [List.length_map]
    exact List.length_take_le _ _
  · rw [List.length_map]
    exact List.length_take_le _ _

/-- Witness for `C5_retrieval_truncation` at a concrete retriever returning
three candidates. -/
theorem C5_witness :
    ∃ (res : RetrievalResult) (passages : List String),
      (process_retrieval (fun _ => dupDocs)
        { question := some "x", language := some "en" }).1 = .ok res ∧
      res.context = String.intercalate "\n\n" passages ∧
      passages.length ≤ DEFAULT_RETRIEVER_K ∧
      res.sources.length ≤ DEFAULT_RETRIEVER_K :=
  C5_retrieval_truncation (fun _ => dupDocs)
    { question := some "x", language := some "en" } "x" rfl (by decide) (by decide)

/-- C8: when the reranked candidate set for a valid query is empty, the
retrieval step returns normally with the fixed sentinel context and an empty
sources list; it is an `ok` result, never an `error`. -/
theorem C8_empty_result_sentinel (retriever : String → List Doc)
    (input : QueryInput) (q : String) (hq : input.question = some q)
    (hne : q ≠ "") (hempty : retriever q = []) :
    (process_retrieval retriever input).1 =
      .ok { context := noDocsMessage, sources := [] } ∧
    ∀ msg, (process_retrieval retriever input).1 ≠ .error msg := by
  obtain ⟨iq, il⟩ := input
  simp only at hq
  subst hq
  have hrr : rerank_documents (retriever q) = [] := by
    rw [hempty, rerank_nil]
  constructor
  · simp [process_retrieval, hne, hrr]
  · intro msg
    simp [process_retrieval, hne, hrr]

/-- Witness for `C8_empty_result_sentinel` at a concrete empty retriever. -/
theorem C8_witness :
    (process_retrieval (fun _ => [])
        { question := some "x", language := some "en" }).1 =
      .ok { context := noDocsMessage, sources := [] } :=
  (C8_empty_result_sentinel (fun _ => [])
    { question := some "x", language := some "en" } "x" rfl (by decide) rfl).1

/-- C9, counterexample to the claim as stated: for the whitespace-only
question `" "` (whose trimmed value is the empty string, as the route guard
itself certifies), `process_retrieval` does NOT reject — the external
retriever is invoked (the call trace is `[" "]`) and a normal result is
returned.  Only `None` and the empty string are caught by `if not query`. -/
theorem C9_cex_whitespace_not_rejected :
    (process_retrieval (fun _ => [])
        { question := some " ", language := some "en" }).2 = [" "] ∧
    (process_retrieval (fun _ => [])
        { question := some " ", language := some "en" }).1 =
      .ok { context := noDocsMessage, sources := [] } ∧
    process_query_rejects_blank " " = true :=
  ⟨rfl, rfl, by decide⟩

/-- C9, amended: a missing `question` key or a question equal to the empty
string is rejected by `process_retrieval` as a `ValueError` before any
external retrieval call is made (the external-call trace is empty); a
whitespace-only question passes this guard and reaches the external call —
it is instead rejected earlier by the HTTP route's `strip()` check. -/
theorem C9_validation_before_external (retriever : String → List Doc)
    (input : QueryInput)
    (h : input.question = none ∨ input.question = some "") :
    (∃ msg, (process_retrieval retriever input).1 = .error msg) ∧
    (process_retrieval retriever input).2 = [] := by
  obtain ⟨iq, il⟩ := input
  rcases h with h | h
  · simp only at h
    subst h
    exact ⟨⟨"Input dictionary must contain a question key.", rfl⟩, rfl⟩
  · simp only at h
    subst h
    refine ⟨⟨"Input dictionary must contain a question key.", ?_⟩, ?_⟩ <;>
      simp [process_retrieval]

/-- Witness for `C9_validation_before_external` at the concrete empty-string
question. -/
theorem C9_witness :
    (∃ msg, (process_retrieval (fun _ => [])
        { question := some "", language := some "en" }).1 = .error msg) ∧
    (process_retrieval (fun _ => [])
        { question := some "", language := some "en" }).2 = [] :=
  C9_validation_before_external (fun _ => [])
    { question := some "", language := some "en" } (Or.inr rfl)

end KnowledgeHub
